import Mathlib

/-!
Verification of the TwitchDropsFarmer core against its specification.

The definitions below are a shallow embedding of the Python source:
`src/backend/core/twitch.py` (AuthManager, Twitch.gql_request,
Twitch.poll_device_auth), `src/backend/core/miner.py` (Miner) and
`src/backend/core/storage.py` (Storage.add_log).  Python attributes that
can be deleted with `delattr` are modelled as `Option (Option String)`
(`none` = attribute absent, `some v` = attribute present with value `v`,
where the inner `Option` is Python's `Optional[str]`).  Reads of possibly
absent attributes return `Except PyError`, mirroring `AttributeError`.
-/

namespace TDF

/-- Python `AttributeError`, raised when reading a deleted attribute. -/
inductive PyError where
  | attributeError
deriving DecidableEq

/-- A read of a Python attribute slot: absent slots raise `AttributeError`. -/
def readAttr (slot : Option (Option String)) : Except PyError (Option String) :=
  match slot with
  | none => Except.error PyError.attributeError
  | some v => Except.ok v

/-- State of `AuthManager` (src/backend/core/twitch.py, class AuthManager):
the `_logged_in` asyncio.Event plus the five credential attributes, each of
which may be deleted by `clear()`. -/
structure AuthManager where
  logged_in : Bool
  user_id : Option (Option String)
  access_token : Option (Option String)
  device_id : Option (Option String)
  session_id : Option (Option String)
  client_version : Option (Option String)
deriving DecidableEq

/-- `AuthManager.__init__`: event unset, all five attributes present with
value `None`. -/
def AuthManager.init : AuthManager :=
  { logged_in := false
    user_id := some none
    access_token := some none
    device_id := some none
    session_id := some none
    client_version := some none }

/-- `AuthManager.clear`: `_delattrs` deletes the five credential attributes
(they become absent, not `None`) and clears the `_logged_in` event. -/
def AuthManager.clear (a : AuthManager) : AuthManager :=
  { a with
    user_id := none
    device_id := none
    session_id := none
    access_token := none
    client_version := none
    logged_in := false }

/-- `AuthManager.is_logged_in`:
`self._logged_in.is_set() and self.access_token is not None`.
Python `and` short-circuits: when the event is unset, `access_token` is
never read, so no `AttributeError` can arise from that branch. -/
def AuthManager.is_logged_in (a : AuthManager) : Except PyError Bool :=
  if a.logged_in then
    match readAttr a.access_token with
    | Except.error e => Except.error e
    | Except.ok t => Except.ok (decide (t ≠ none))
  else
    Except.ok false

/-- `Twitch.poll_device_auth` success path: `self.auth.access_token = access_token`
(a plain attribute assignment; the `_logged_in` event is not touched). -/
def AuthManager.set_access_token (a : AuthManager) (tok : String) : AuthManager :=
  { a with access_token := some (some tok) }

/-- The Authorization-header injection of `Twitch.request`:
`if self.auth.access_token:` reads the attribute (raising `AttributeError`
when it has been deleted) and adds the header when the value is truthy. -/
def authHeaderOf (a : AuthManager) : Except PyError (Option String) :=
  match readAttr a.access_token with
  | Except.error e => Except.error e
  | Except.ok none => Except.ok none
  | Except.ok (some s) =>
      if s = "" then Except.ok none else Except.ok (some ("OAuth " ++ s))

/-! ### The token-poll state machine (`Twitch.poll_device_auth`) -/

/-- One upstream response to a token-poll POST.
`ok t`: HTTP 200; `t = some tok` when the JSON body parses and has an
`access_token` field, `none` when it does not (the `KeyError` /parse error
is caught by the outer `except` and treated as transient).
`badRequest e`: HTTP 400; `e = some s` is the parsed `error` field
(`json_data.get("error", "")` yields `some ""` when the field is absent),
`none` is a JSON parse failure caught by the inner `except`.
`otherStatus`: any other HTTP status.  `exn`: the request itself raised. -/
inductive PollResponse where
  | ok (token : Option String)
  | badRequest (error : Option String)
  | otherStatus (code : Nat)
  | exn
deriving DecidableEq

/-- Terminal outcome of the poll loop: the function either returns a token
or returns `None`. -/
inductive PollOutcome where
  | authenticated (token : String)
  | failed
deriving DecidableEq

/-- What one poll attempt does, as decided by `poll_device_auth`'s
`if`/`elif` chain on the response. -/
inductive StepKind where
  | terminalOk (token : String)
  | terminalFail
  | slow
  | continueLoop
deriving DecidableEq

/-- The branch structure of `poll_device_auth` on one response:
HTTP 200 with a token returns it; HTTP 400 with `authorization_pending`
continues; `expired_token` / `access_denied` break; `slow_down` sleeps an
extra interval and continues; every other case (unknown 400 error, parse
failure, other status, exception) continues to the next iteration. -/
def classify (r : PollResponse) : StepKind :=
  match r with
  | PollResponse.ok (some t) => StepKind.terminalOk t
  | PollResponse.ok none => StepKind.continueLoop
  | PollResponse.badRequest (some e) =>
      if e = "authorization_pending" then StepKind.continueLoop
      else if e = "expired_token" ∨ e = "access_denied" then StepKind.terminalFail
      else if e = "slow_down" then StepKind.slow
      else StepKind.continueLoop
  | PollResponse.badRequest none => StepKind.continueLoop
  | PollResponse.otherStatus _ => StepKind.continueLoop
  | PollResponse.exn => StepKind.continueLoop

/-- `true` exactly on the responses on which the loop stops by itself
(HTTP 200 with a token, or HTTP 400 with `expired_token`/`access_denied`). -/
def isTerminalB (r : PollResponse) : Bool :=
  match classify r with
  | StepKind.terminalOk _ => true
  | StepKind.terminalFail => true
  | _ => false

/-- `true` exactly on an HTTP 400 `slow_down` response. -/
def isSlowB (r : PollResponse) : Bool :=
  match classify r with
  | StepKind.slow => true
  | _ => false

/-- Observable result of running the poll loop: the outcome, the final
`AuthManager` state, the number of poll attempts actually performed, the
wait (total sleep) that preceded each attempt, and any trailing sleep
performed after the last attempt (a `slow_down` on the final attempt). -/
structure PollResult where
  outcome : PollOutcome
  auth : AuthManager
  attempts : Nat
  waits : List Nat
  trailing : Nat

/-- A non-terminal attempt without backoff: the next iteration starts with
the base `time.sleep(interval)`. -/
def stepCont (interval : Nat) (rec : PollResult) : PollResult :=
  { outcome := rec.outcome
    auth := rec.auth
    attempts := rec.attempts + 1
    waits := interval :: rec.waits
    trailing := rec.trailing }

/-- A `slow_down` attempt: `time.sleep(interval)` executes once more before
the loop continues, so the extra interval is added to the wait preceding
the next attempt (or trails after the last attempt when none follows). -/
def stepSlow (interval : Nat) (rec : PollResult) : PollResult :=
  match rec.waits with
  | [] =>
      { outcome := rec.outcome
        auth := rec.auth
        attempts := rec.attempts + 1
        waits := [interval]
        trailing := interval + rec.trailing }
  | w :: ws =>
      { outcome := rec.outcome
        auth := rec.auth
        attempts := rec.attempts + 1
        waits := interval :: (interval + w) :: ws
        trailing := rec.trailing }

/-- The `for attempt in range(max_attempts)` loop of `poll_device_auth`.
`idx` is the index of the next attempt, `fuel` the remaining attempts.
Each iteration sleeps `interval`, performs the POST (whose behaviour is
`resp idx`) and acts on the response as in `classify`. -/
def pollLoop (interval : Nat) (resp : Nat → PollResponse) (auth : AuthManager) :
    Nat → Nat → PollResult
  | _, 0 =>
      { outcome := PollOutcome.failed
        auth := auth
        attempts := 0
        waits := []
        trailing := 0 }
  | idx, fuel + 1 =>
      match classify (resp idx) with
      | StepKind.terminalOk t =>
          { outcome := PollOutcome.authenticated t
            auth := auth.set_access_token t
            attempts := 1
            waits := [interval]
            trailing := 0 }
      | StepKind.terminalFail =>
          { outcome := PollOutcome.failed
            auth := auth
            attempts := 1
            waits := [interval]
            trailing := 0 }
      | StepKind.slow =>
          stepSlow interval (pollLoop interval resp auth (idx + 1) fuel)
      | StepKind.continueLoop =>
          stepCont interval (pollLoop interval resp auth (idx + 1) fuel)

/-- `Twitch.poll_device_auth`: polls for up to `max_attempts = 300 // interval`
attempts (Python floor division). -/
def poll_device_auth (interval : Nat) (resp : Nat → PollResponse)
    (auth : AuthManager) : PollResult :=
  pollLoop interval resp auth 0 (300 / interval)

/-- Number of `slow_down` responses among attempts `idx, idx+1, …, idx+n-1`. -/
def countSlowFrom (resp : Nat → PollResponse) (idx : Nat) : Nat → Nat
  | 0 => 0
  | n + 1 => (if isSlowB (resp idx) then 1 else 0) + countSlowFrom resp (idx + 1) n

/-! ### `Twitch.gql_request` (src/backend/core/twitch.py) -/

/-- The JSON body of a 200 response from the GraphQL endpoint: either a
list of per-operation results or a single (non-list) result object. -/
inductive JsonDoc (β : Type) where
  | arr (xs : List β)
  | single (x : β)

/-- The payload `gql_request` posts: a bare operation when exactly one was
given, a JSON list otherwise. -/
inductive GqlPayload (α : Type) where
  | single (op : α)
  | batch (ops : List α)

/-- `# Prepare payload - single operation or list` in `gql_request`. -/
def payloadOf {α : Type} (ops : List α) : GqlPayload α :=
  match ops with
  | [op] => GqlPayload.single op
  | _ => GqlPayload.batch ops

/-- How `gql_request` can fail: an uncaught `AttributeError` from the auth
attributes, `GQLException("Not logged in")`, or
`GQLException("GraphQL request failed: <status>")` on a non-200 response. -/
inductive GqlErr where
  | attrErr
  | notLoggedIn
  | requestFailed (status : Nat)
deriving DecidableEq

/-- `Twitch.gql_request`: checks `self.auth.is_logged_in` first and raises
`GQLException("Not logged in")` before any network traffic; builds the
Authorization header from `self.auth.access_token`; posts `payloadOf ops`;
raises on a non-200 status; and wraps a non-list 200 body into a
one-element list (`# Return as list for consistency`).  `net` is the
upstream response (status, body) the single POST would get. -/
def gql_request {α β : Type} (auth : AuthManager) (ops : List α)
    (net : Nat × JsonDoc β) : Except GqlErr (List β) :=
  match auth.is_logged_in with
  | Except.error _ => Except.error GqlErr.attrErr
  | Except.ok false => Except.error GqlErr.notLoggedIn
  | Except.ok true =>
      match readAttr auth.access_token with
      | Except.error _ => Except.error GqlErr.attrErr
      | Except.ok _ =>
          let _payload := payloadOf ops
          if net.1 ≠ 200 then Except.error (GqlErr.requestFailed net.1)
          else
            match net.2 with
            | JsonDoc.arr xs => Except.ok xs
            | JsonDoc.single x => Except.ok [x]

/-! ### `Storage.add_log` (src/backend/core/storage.py) -/

/-- A persisted log entry (dataclass `LogEntry`). -/
structure LogEntry where
  timestamp : String
  level : String
  message : String
  game_id : String
  stream_id : String
deriving DecidableEq

/-- `Storage.add_log`: append the new entry, then keep only the last 1000
entries (`logs_data = logs_data[-1000:]` when the length exceeds 1000). -/
def add_log (logs : List LogEntry) (entry : LogEntry) : List LogEntry :=
  let l := logs ++ [entry]
  if 1000 < l.length then l.drop (l.length - 1000) else l

/-! ### The Miner / Orchestrator (src/backend/core/miner.py) -/

/-- Dataclass `Game`. -/
structure Game where
  id : String
  name : String
  display_name : String
  box_art_url : String
deriving DecidableEq

/-- Dataclass `Stream` (the fields the miner populates). -/
structure Stream where
  id : String
  user_id : String
  user_login : String
  user_name : String
  title : String
  viewer_count : Nat
  language : String
  game_id : String
  game_name : String
deriving DecidableEq

/-- Lookup in the games dict returned by `storage.get_games()` (Python dict
keys are unique; modelled as an association list). -/
def dictLookup (games : List (String × Game)) (key : String) : Option Game :=
  match games with
  | [] => none
  | (k, v) :: rest => if k = key then some v else dictLookup rest key

/-- The game-selection loop of `Miner._process_next_game`:
`for game_id in settings.games: if game_id in games: next_game = games[game_id]; break`. -/
def selectNextGame (priority : List String) (games : List (String × Game)) : Option Game :=
  match priority with
  | [] => none
  | gid :: rest =>
      match dictLookup games gid with
      | some g => some g
      | none => selectNextGame rest games

/-- Miner state: `is_running`, `current_game`, `current_stream`,
`watch_start_time` (timestamps as naturals). -/
structure MinerState where
  is_running : Bool
  current_game : Option Game
  current_stream : Option Stream
  watch_start_time : Option Nat
deriving DecidableEq

/-- `Miner.__init__` state. -/
def minerInit : MinerState :=
  { is_running := false
    current_game := none
    current_stream := none
    watch_start_time := none }

/-- A `MinerStatus` snapshot as built by `Miner._update_status`. -/
structure MinerStatus where
  is_running : Bool
  current_game : Option Game
  current_stream : Option Stream
  watch_duration : Nat
  total_watched : Nat
  games_queue : List Game
  last_update : Nat
deriving DecidableEq

/-- `Miner._update_status`: the snapshot copies the running flag, current
game and current stream; watch duration is elapsed time only while a watch
session exists and the miner runs. -/
def update_status (st : MinerState) (now : Nat) (queue : List Game) : MinerStatus :=
  { is_running := st.is_running
    current_game := st.current_game
    current_stream := st.current_stream
    watch_duration :=
      match st.watch_start_time with
      | some t => if st.is_running then now - t else 0
      | none => 0
    total_watched := 0
    games_queue := queue
    last_update := now }

/-- Environment of one `_process_next_game` iteration: everything the
iteration reads from outside the miner state.  `discovered` is the stream
`_find_and_watch_stream` would adopt (`none` when discovery returns no
stream or raises); `watchOk` is whether `get_stream_access_token`
succeeds; `now` is the current clock. -/
structure IterEnv where
  logged_in : Bool
  priority : List String
  catalog : List (String × Game)
  discovered : Option Stream
  watchOk : Bool
  now : Nat

/-- Games queue used in emitted snapshots:
`list(self.storage.get_games().values())`. -/
def IterEnv.queue (env : IterEnv) : List Game :=
  env.catalog.map Prod.snd

/-- `Miner._watch_stream`: on success the state is unchanged and a status
snapshot is emitted; on failure (`get_stream_access_token` raised) the
current stream and watch session are cleared and nothing is emitted. -/
def watch_stream (st : MinerState) (requestOk : Bool) (now : Nat)
    (queue : List Game) : MinerState × List MinerStatus :=
  if requestOk then (st, [update_status st now queue])
  else ({ st with current_stream := none, watch_start_time := none }, [])

/-- `Miner._switch_to_game`: adopt the game, clear stream and watch
session, emit a status snapshot. -/
def switch_to_game (st : MinerState) (g : Game) (now : Nat)
    (queue : List Game) : MinerState × List MinerStatus :=
  let st1 : MinerState :=
    { st with current_game := some g, current_stream := none, watch_start_time := none }
  (st1, [update_status st1 now queue])

/-- `Miner._is_stream_live`: time-based placeholder — live while the watch
session is younger than 30 minutes, and live when no session exists. -/
def stream_live (st : MinerState) (now : Nat) : Bool :=
  match st.watch_start_time with
  | some t => now - t < 1800
  | none => true

/-- `Miner._find_and_watch_stream`: adopt a discovered stream (stamping
the game id/name), start a watch session, then issue the watch request;
when discovery yields nothing (or raises), only a log entry is produced. -/
def find_and_watch (st : MinerState) (g : Game) (env : IterEnv) :
    MinerState × List MinerStatus :=
  match env.discovered with
  | none => (st, [])
  | some s =>
      let st2 : MinerState :=
        { st with
          current_stream := some { s with game_id := g.id, game_name := g.display_name }
          watch_start_time := some env.now }
      watch_stream st2 env.watchOk env.now env.queue

/-- `Miner._continue_watching`: re-issue the watch request on the current
stream, if any. -/
def continue_watching (st : MinerState) (env : IterEnv) :
    MinerState × List MinerStatus :=
  match st.current_stream with
  | some _ => watch_stream st env.watchOk env.now env.queue
  | none => (st, [])

/-- The game-switch step of `_process_next_game`:
`if not self.current_game or self.current_game.id != next_game.id`. -/
def switch_step (st : MinerState) (g : Game) (env : IterEnv) :
    MinerState × List MinerStatus :=
  match st.current_game with
  | none => switch_to_game st g env.now env.queue
  | some cg =>
      if cg.id ≠ g.id then switch_to_game st g env.now env.queue
      else (st, [])

/-- The watch step of `_process_next_game`: rediscover when there is no
current stream or it is judged stale, else continue watching. -/
def watch_step (sw : MinerState × List MinerStatus) (g : Game) (env : IterEnv) :
    MinerState × List MinerStatus :=
  if sw.1.current_stream.isNone || !(stream_live sw.1 env.now) then
    let r := find_and_watch sw.1 g env
    (r.1, sw.2 ++ r.2)
  else
    let r := continue_watching sw.1 env
    (r.1, sw.2 ++ r.2)

/-- One iteration of `Miner._process_next_game`, returning the new state
and the status snapshots emitted during the iteration, in order. -/
def process_next_game (st : MinerState) (env : IterEnv) :
    MinerState × List MinerStatus :=
  if !env.logged_in then (st, [])
  else if env.priority.isEmpty then (st, [])
  else
    match selectNextGame env.priority env.catalog with
    | none => (st, [])
    | some g => watch_step (switch_step st g env) g env

/-- `Miner.start`: no-op when already running, otherwise set the running
flag (the loop thread is spawned and the stop event cleared). -/
def minerStart (st : MinerState) : MinerState :=
  if st.is_running then st else { st with is_running := true }

/-- `Miner.stop`: no-op when not running, otherwise clear the running flag
and clear current game, current stream and watch session. -/
def minerStop (st : MinerState) : MinerState :=
  if st.is_running then
    { st with
      is_running := false
      current_game := none
      current_stream := none
      watch_start_time := none }
  else st

/-- External events driving the miner: `start()`, `stop()`, and one loop
iteration (which the `while self.is_running and not self._stop_event`
guard only runs while the miner is running). -/
inductive MinerEvent where
  | start
  | stop
  | iterate (env : IterEnv)

/-- One step of the miner state machine. -/
def minerStep (st : MinerState) : MinerEvent → MinerState
  | MinerEvent.start => minerStart st
  | MinerEvent.stop => minerStop st
  | MinerEvent.iterate env =>
      if st.is_running then (process_next_game st env).1 else st

/-- The state after an arbitrary sequence of events from the initial state. -/
def minerRun (evs : List MinerEvent) : MinerState :=
  evs.foldl minerStep minerInit

/-! ### The status/log broadcaster
(`Miner._broadcast_status_update` / `Miner._broadcast_log_update`) -/

/-- The delivery loop `for client in self.ws_clients.copy(): try:
client.emit(...) except: self.ws_clients.discard(client)`.
`pending` is the copy being iterated, `subs` the live subscriber set,
`delivered` the (reversed) list of successful deliveries so far. -/
def broadcastGo {α : Type} [DecidableEq α] (ok : α → Bool) :
    List α → List α → List α → List α × List α
  | [], subs, delivered => (delivered.reverse, subs)
  | c :: cs, subs, delivered =>
      if ok c then broadcastGo ok cs subs (c :: delivered)
      else broadcastGo ok cs (subs.erase c) delivered

/-- Broadcast one event to every currently registered subscriber:
returns (clients delivered to, in iteration order; remaining subscriber
set).  `ok c` tells whether delivery to `c` succeeds. -/
def broadcast {α : Type} [DecidableEq α] (ok : α → Bool) (clients : List α) :
    List α × List α :=
  broadcastGo ok clients clients []

/-- A logged-in `AuthManager` state (event set, token present). -/
def loggedInAuth : AuthManager :=
  { logged_in := true
    user_id := some none
    access_token := some (some "tk")
    device_id := some none
    session_id := some none
    client_version := some none }

/-- Concrete catalog game used in the C5 example. -/
def gameB : Game :=
  { id := "gameB", name := "Game B", display_name := "Game B", box_art_url := "" }

/-- Game used in the C6 counterexample trace. -/
def gameC6 : Game := { id := "g1", name := "G", display_name := "G", box_art_url := "" }

/-- Stream being watched when the watch request fails in the C6 trace. -/
def streamC6 : Stream :=
  { id := "s1", user_id := "", user_login := "chan", user_name := "Chan"
    title := "T", viewer_count := 10, language := "en"
    game_id := "g1", game_name := "G" }

/-- Stream discovered on the tick after the failure in the C6 trace. -/
def streamC6' : Stream :=
  { id := "s2", user_id := "", user_login := "chan2", user_name := "Chan2"
    title := "T2", viewer_count := 5, language := "en"
    game_id := "", game_name := "" }

/-- Miner state at the failing tick of the C6 trace. -/
def stC6 : MinerState :=
  { is_running := true, current_game := some gameC6
    current_stream := some streamC6, watch_start_time := some 0 }

/-- Environment of the failing tick: watch request fails. -/
def envC6fail : IterEnv :=
  { logged_in := true, priority := ["g1"], catalog := [("g1", gameC6)]
    discovered := none, watchOk := false, now := 10 }

/-- Environment of the next tick: rediscovery finds a stream and the watch
request succeeds. -/
def envC6next : IterEnv :=
  { logged_in := true, priority := ["g1"], catalog := [("g1", gameC6)]
    discovered := some streamC6', watchOk := true, now := 20 }

/-- Game used by the C8 witness trace. -/
def gameC8 : Game := { id := "g1", name := "G", display_name := "G", box_art_url := "" }

/-- Stream used by the C8 witness trace. -/
def streamC8 : Stream :=
  { id := "s1", user_id := "", user_login := "chan", user_name := "Chan"
    title := "T", viewer_count := 10, language := "en"
    game_id := "", game_name := "" }

/-- The idle invariant: a non-running miner has no current stream. -/
def IdleInv (st : MinerState) : Prop :=
  st.is_running = false → st.current_stream = none

/-! ### Bridge lemmas: `classify` versus the raw responses -/

theorem classify_terminalOk_iff (r : PollResponse) (t : String) :
    classify r = StepKind.terminalOk t ↔ r = PollResponse.ok (some t) := by
  cases r with
  | ok o => cases o <;> simp [classify]
  | badRequest o =>
      cases o with
      | none => simp [classify]
      | some e =>
          simp only [classify]
          split_ifs <;> simp
  | otherStatus c => simp [classify]
  | exn => simp [classify]

theorem classify_terminalFail_iff (r : PollResponse) :
    classify r = StepKind.terminalFail ↔
      (r = PollResponse.badRequest (some "expired_token") ∨
       r = PollResponse.badRequest (some "access_denied")) := by
  cases r with
  | ok o => cases o <;> simp [classify]
  | badRequest o =>
      cases o with
      | none => simp [classify]
      | some e =>
          simp only [classify]
          split_ifs with h1 h2 h3
          · subst h1; simp
          · rcases h2 with h | h <;> subst h <;> simp
          · subst h3; simp
          · push_neg at h2
            simp [h2.1, h2.2]
  | otherStatus c => simp [classify]
  | exn => simp [classify]

theorem classify_slow_iff (r : PollResponse) :
    classify r = StepKind.slow ↔ r = PollResponse.badRequest (some "slow_down") := by
  cases r with
  | ok o => cases o <;> simp [classify]
  | badRequest o =>
      cases o with
      | none => simp [classify]
      | some e =>
          simp only [classify]
          split_ifs with h1 h2 h3
          · subst h1; simp
          · rcases h2 with h | h <;> subst h <;> simp
          · subst h3; simp
          · simp [h3]
  | otherStatus c => simp [classify]
  | exn => simp [classify]

theorem isTerminalB_false_iff (r : PollResponse) :
    isTerminalB r = false ↔
      (classify r = StepKind.slow ∨ classify r = StepKind.continueLoop) := by
  cases h : classify r <;> simp [isTerminalB, h]

/-! ### Structural lemmas about the poll loop -/

theorem pollLoop_waits_length (interval : Nat) (resp : Nat → PollResponse)
    (auth : AuthManager) :
    ∀ fuel idx, (pollLoop interval resp auth idx fuel).waits.length
      = (pollLoop interval resp auth idx fuel).attempts := by
  intro fuel
  induction fuel with
  | zero => intro idx; rfl
  | succ n ih =>
      intro idx
      cases hc : classify (resp idx) with
      | terminalOk t => simp [pollLoop, hc]
      | terminalFail => simp [pollLoop, hc]
      | slow =>
          have h := ih (idx + 1)
          simp only [pollLoop, hc]
          cases hw : (pollLoop interval resp auth (idx + 1) n).waits with
          | nil =>
              have h0 : (pollLoop interval resp auth (idx + 1) n).attempts = 0 := by
                rw [← h, hw]; rfl
              simp [stepSlow, hw, h0]
          | cons w ws =>
              rw [hw] at h
              simp only [List.length_cons] at h
              simp [stepSlow, hw, ← h]
      | continueLoop =>
          have h := ih (idx + 1)
          simp [pollLoop, hc, stepCont, h]

theorem pollLoop_attempts_le (interval : Nat) (resp : Nat → PollResponse)
    (auth : AuthManager) :
    ∀ fuel idx, (pollLoop interval resp auth idx fuel).attempts ≤ fuel := by
  intro fuel
  induction fuel with
  | zero => intro idx; exact Nat.le_refl 0
  | succ n ih =>
      intro idx
      cases hc : classify (resp idx) with
      | terminalOk t => simp [pollLoop, hc]
      | terminalFail => simp [pollLoop, hc]
      | slow =>
          have h := ih (idx + 1)
          simp only [pollLoop, hc]
          cases hw : (pollLoop interval resp auth (idx + 1) n).waits with
          | nil => simp [stepSlow, hw]; omega
          | cons w ws => simp [stepSlow, hw]; omega
      | continueLoop =>
          have h := ih (idx + 1)
          simp [pollLoop, hc, stepCont]
          omega

theorem pollLoop_attempts_pos (interval : Nat) (resp : Nat → PollResponse)
    (auth : AuthManager) (fuel idx : Nat) (hf : 0 < fuel) :
    0 < (pollLoop interval resp auth idx fuel).attempts := by
  cases fuel with
  | zero => omega
  | succ n =>
      cases hc : classify (resp idx) with
      | terminalOk t => simp [pollLoop, hc]
      | terminalFail => simp [pollLoop, hc]
      | slow =>
          simp only [pollLoop, hc]
          cases hw : (pollLoop interval resp auth (idx + 1) n).waits with
          | nil => simp [stepSlow, hw]
          | cons w ws => simp [stepSlow, hw]
      | continueLoop => simp [pollLoop, hc, stepCont]

/-- The attempts-count part of `stepSlow` in one equation. -/
theorem stepSlow_attempts (interval : Nat) (rec : PollResult) :
    (stepSlow interval rec).attempts = rec.attempts + 1 := by
  cases hw : rec.waits <;> simp [stepSlow, hw]

/-- The outcome part of `stepSlow` in one equation. -/
theorem stepSlow_outcome (interval : Nat) (rec : PollResult) :
    (stepSlow interval rec).outcome = rec.outcome := by
  cases hw : rec.waits <;> simp [stepSlow, hw]

/-- Every attempt that has a successor attempt got a non-terminal response:
once the loop stops (success or hard failure), no further attempt is made. -/
theorem pollLoop_nonfinal_nonterminal (interval : Nat) (resp : Nat → PollResponse)
    (auth : AuthManager) :
    ∀ fuel idx i, i + 1 < (pollLoop interval resp auth idx fuel).attempts →
      isTerminalB (resp (idx + i)) = false := by
  intro fuel
  induction fuel with
  | zero => intro idx i h; simp [pollLoop] at h
  | succ n ih =>
      intro idx i h
      cases hc : classify (resp idx) with
      | terminalOk t => simp [pollLoop, hc] at h
      | terminalFail => simp [pollLoop, hc] at h
      | slow =>
          rw [pollLoop] at h
          simp only [hc] at h
          rw [stepSlow_attempts] at h
          cases i with
          | zero =>
              rw [isTerminalB_false_iff]
              exact Or.inl hc
          | succ j =>
              have hj : j + 1 < (pollLoop interval resp auth (idx + 1) n).attempts := by
                omega
              have := ih (idx + 1) j hj
              have harith : idx + 1 + j = idx + (j + 1) := by omega
              rwa [harith] at this
      | continueLoop =>
          rw [pollLoop] at h
          simp only [hc, stepCont] at h
          cases i with
          | zero =>
              rw [isTerminalB_false_iff]
              exact Or.inr hc
          | succ j =>
              have hj : j + 1 < (pollLoop interval resp auth (idx + 1) n).attempts := by
                omega
              have := ih (idx + 1) j hj
              have harith : idx + 1 + j = idx + (j + 1) := by omega
              rwa [harith] at this

/-- The loop terminates authenticated exactly when one of the attempts it
actually performed got an HTTP 200 response with an `access_token` field. -/
theorem pollLoop_authenticated_iff (interval : Nat) (resp : Nat → PollResponse)
    (auth : AuthManager) :
    ∀ fuel idx,
      (∃ t, (pollLoop interval resp auth idx fuel).outcome = PollOutcome.authenticated t) ↔
      (∃ i, i < (pollLoop interval resp auth idx fuel).attempts ∧
        ∃ t, resp (idx + i) = PollResponse.ok (some t)) := by
  intro fuel
  induction fuel with
  | zero =>
      intro idx
      simp [pollLoop]
  | succ n ih =>
      intro idx
      cases hc : classify (resp idx) with
      | terminalOk t =>
          have hr : resp idx = PollResponse.ok (some t) :=
            (classify_terminalOk_iff (resp idx) t).mp hc
          simp only [pollLoop, hc]
          constructor
          · intro _
            exact ⟨0, by omega, t, by simpa using hr⟩
          · intro _
            exact ⟨t, rfl⟩
      | terminalFail =>
          simp only [pollLoop, hc]
          constructor
          · rintro ⟨t, ht⟩
            exact absurd ht (by simp)
          · rintro ⟨i, hi, t, ht⟩
            have hi0 : i = 0 := by simpa using hi
            subst hi0
            have : classify (resp idx) = StepKind.terminalOk t := by
              rw [classify_terminalOk_iff]
              simpa using ht
            rw [hc] at this
            exact absurd this (by simp)
      | slow =>
          have hns : ∀ t, resp idx ≠ PollResponse.ok (some t) := by
            intro t hr
            have : classify (resp idx) = StepKind.terminalOk t := by
              rw [classify_terminalOk_iff]; exact hr
            rw [hc] at this
            exact absurd this (by simp)
          rw [pollLoop]
          simp only [hc, stepSlow_outcome, stepSlow_attempts]
          rw [ih (idx + 1)]
          constructor
          · rintro ⟨i, hi, t, ht⟩
            refine ⟨i + 1, by omega, t, ?_⟩
            have harith : idx + 1 + i = idx + (i + 1) := by omega
            rwa [harith] at ht
          · rintro ⟨i, hi, t, ht⟩
            cases i with
            | zero => exact absurd (by simpa using ht) (hns t)
            | succ j =>
                refine ⟨j, by omega, t, ?_⟩
                have harith : idx + 1 + j = idx + (j + 1) := by omega
                rwa [harith]
      | continueLoop =>
          have hns : ∀ t, resp idx ≠ PollResponse.ok (some t) := by
            intro t hr
            have : classify (resp idx) = StepKind.terminalOk t := by
              rw [classify_terminalOk_iff]; exact hr
            rw [hc] at this
            exact absurd this (by simp)
          rw [pollLoop]
          simp only [hc, stepCont]
          rw [ih (idx + 1)]
          constructor
          · rintro ⟨i, hi, t, ht⟩
            refine ⟨i + 1, by omega, t, ?_⟩
            have harith : idx + 1 + i = idx + (i + 1) := by omega
            rwa [harith] at ht
          · rintro ⟨i, hi, t, ht⟩
            cases i with
            | zero => exact absurd (by simpa using ht) (hns t)
            | succ j =>
                refine ⟨j, by omega, t, ?_⟩
                have harith : idx + 1 + j = idx + (j + 1) := by omega
                rwa [harith]

/-- A failed outcome is always explained: either the attempt budget was
fully used, or some performed attempt got `expired_token`/`access_denied`. -/
theorem pollLoop_failed_reason (interval : Nat) (resp : Nat → PollResponse)
    (auth : AuthManager) :
    ∀ fuel idx, (pollLoop interval resp auth idx fuel).outcome = PollOutcome.failed →
      (pollLoop interval resp auth idx fuel).attempts = fuel ∨
      ∃ i, i < (pollLoop interval resp auth idx fuel).attempts ∧
        (resp (idx + i) = PollResponse.badRequest (some "expired_token") ∨
         resp (idx + i) = PollResponse.badRequest (some "access_denied")) := by
  intro fuel
  induction fuel with
  | zero => intro idx _; exact Or.inl rfl
  | succ n ih =>
      intro idx h
      cases hc : classify (resp idx) with
      | terminalOk t => simp [pollLoop, hc] at h
      | terminalFail =>
          refine Or.inr ⟨0, by simp [pollLoop, hc], ?_⟩
          have := (classify_terminalFail_iff (resp idx)).mp hc
          simpa using this
      | slow =>
          rw [pollLoop] at h ⊢
          simp only [hc, stepSlow_outcome] at h
          simp only [hc, stepSlow_attempts]
          rcases ih (idx + 1) h with he | ⟨i, hi, hr⟩
          · exact Or.inl (by omega)
          · refine Or.inr ⟨i + 1, by omega, ?_⟩
            have harith : idx + 1 + i = idx + (i + 1) := by omega
            rwa [harith] at hr
      | continueLoop =>
          rw [pollLoop] at h ⊢
          simp only [hc, stepCont] at h ⊢
          rcases ih (idx + 1) h with he | ⟨i, hi, hr⟩
          · exact Or.inl (by omega)
          · refine Or.inr ⟨i + 1, by omega, ?_⟩
            have harith : idx + 1 + i = idx + (i + 1) := by omega
            rwa [harith] at hr

/-- A performed attempt with a non-terminal response is never the last one
while budget remains: the loop always retries. -/
theorem pollLoop_continues (interval : Nat) (resp : Nat → PollResponse)
    (auth : AuthManager) :
    ∀ fuel idx i, i < (pollLoop interval resp auth idx fuel).attempts →
      isTerminalB (resp (idx + i)) = false → i + 1 < fuel →
      i + 1 < (pollLoop interval resp auth idx fuel).attempts := by
  intro fuel
  induction fuel with
  | zero => intro idx i h _ _; simp [pollLoop] at h
  | succ n ih =>
      intro idx i h hnt hf
      cases hc : classify (resp idx) with
      | terminalOk t =>
          simp only [pollLoop, hc] at h ⊢
          interval_cases i
          · rw [isTerminalB_false_iff] at hnt
            simp only [Nat.add_zero] at hnt
            rcases hnt with h' | h' <;> rw [hc] at h' <;> exact absurd h' (by simp)
      | terminalFail =>
          simp only [pollLoop, hc] at h ⊢
          interval_cases i
          · rw [isTerminalB_false_iff] at hnt
            simp only [Nat.add_zero] at hnt
            rcases hnt with h' | h' <;> rw [hc] at h' <;> exact absurd h' (by simp)
      | slow =>
          rw [pollLoop] at h ⊢
          simp only [hc, stepSlow_attempts] at h ⊢
          cases i with
          | zero =>
              have : 0 < (pollLoop interval resp auth (idx + 1) n).attempts :=
                pollLoop_attempts_pos interval resp auth n (idx + 1) (by omega)
              omega
          | succ j =>
              have hj := ih (idx + 1) j (by omega)
                (by have harith : idx + 1 + j = idx + (j + 1) := by omega
                    rwa [harith]) (by omega)
              omega
      | continueLoop =>
          rw [pollLoop] at h ⊢
          simp only [hc, stepCont] at h ⊢
          cases i with
          | zero =>
              have : 0 < (pollLoop interval resp auth (idx + 1) n).attempts :=
                pollLoop_attempts_pos interval resp auth n (idx + 1) (by omega)
              omega
          | succ j =>
              have hj := ih (idx + 1) j (by omega)
                (by have harith : idx + 1 + j = idx + (j + 1) := by omega
                    rwa [harith]) (by omega)
              omega

/-- An `expired_token`/`access_denied` response on a performed attempt forces
the failed outcome. -/
theorem pollLoop_terminalFail_failed (interval : Nat) (resp : Nat → PollResponse)
    (auth : AuthManager) :
    ∀ fuel idx i, i < (pollLoop interval resp auth idx fuel).attempts →
      classify (resp (idx + i)) = StepKind.terminalFail →
      (pollLoop interval resp auth idx fuel).outcome = PollOutcome.failed := by
  intro fuel
  induction fuel with
  | zero => intro idx i h _; simp [pollLoop] at h
  | succ n ih =>
      intro idx i h hfail
      cases hc : classify (resp idx) with
      | terminalOk t =>
          simp only [pollLoop, hc] at h ⊢
          interval_cases i
          · simp only [Nat.add_zero] at hfail
            rw [hc] at hfail
            exact absurd hfail (by simp)
      | terminalFail => simp [pollLoop, hc]
      | slow =>
          rw [pollLoop] at h ⊢
          simp only [hc, stepSlow_attempts] at h
          simp only [hc, stepSlow_outcome]
          cases i with
          | zero =>
              simp only [Nat.add_zero] at hfail
              rw [hc] at hfail
              exact absurd hfail (by simp)
          | succ j =>
              exact ih (idx + 1) j (by omega)
                (by have harith : idx + 1 + j = idx + (j + 1) := by omega
                    rwa [harith])
      | continueLoop =>
          rw [pollLoop] at h ⊢
          simp only [hc, stepCont] at h ⊢
          cases i with
          | zero =>
              simp only [Nat.add_zero] at hfail
              rw [hc] at hfail
              exact absurd hfail (by simp)
          | succ j =>
              exact ih (idx + 1) j (by omega)
                (by have harith : idx + 1 + j = idx + (j + 1) := by omega
                    rwa [harith])

/-- With no terminal response in the whole budget window, the loop uses the
entire budget and fails. -/
theorem pollLoop_exhaustion (interval : Nat) (resp : Nat → PollResponse)
    (auth : AuthManager) :
    ∀ fuel idx, (∀ i, i < fuel → isTerminalB (resp (idx + i)) = false) →
      (pollLoop interval resp auth idx fuel).outcome = PollOutcome.failed ∧
      (pollLoop interval resp auth idx fuel).attempts = fuel := by
  intro fuel
  induction fuel with
  | zero => intro idx _; exact ⟨rfl, rfl⟩
  | succ n ih =>
      intro idx hall
      have h0 := hall 0 (by omega)
      rw [isTerminalB_false_iff] at h0
      have hrec := ih (idx + 1) (by
        intro i hi
        have := hall (i + 1) (by omega)
        have harith : idx + (i + 1) = idx + 1 + i := by omega
        rwa [harith] at this)
      rcases h0 with hc | hc
      · rw [pollLoop]
        simp only [Nat.add_zero] at hc
        simp only [hc, stepSlow_outcome, stepSlow_attempts]
        exact ⟨hrec.1, by omega⟩
      · rw [pollLoop]
        simp only [Nat.add_zero] at hc
        simp only [hc, stepCont]
        exact ⟨hrec.1, by omega⟩

/-- The wait before the first attempt is the base `interval`. -/
theorem pollLoop_waits_head (interval : Nat) (resp : Nat → PollResponse)
    (auth : AuthManager) :
    ∀ fuel idx, 0 < (pollLoop interval resp auth idx fuel).attempts →
      (pollLoop interval resp auth idx fuel).waits.getD 0 0 = interval := by
  intro fuel
  induction fuel with
  | zero => intro idx h; simp [pollLoop] at h
  | succ n ih =>
      intro idx _
      cases hc : classify (resp idx) with
      | terminalOk t => simp [pollLoop, hc]
      | terminalFail => simp [pollLoop, hc]
      | slow =>
          rw [pollLoop]
          simp only [hc]
          cases hw : (pollLoop interval resp auth (idx + 1) n).waits with
          | nil => simp [stepSlow, hw]
          | cons w ws => simp [stepSlow, hw]
      | continueLoop =>
          rw [pollLoop]
          simp [hc, stepCont]

/-- The wait before attempt `k+1` is the base `interval`, plus an extra
`interval` exactly when attempt `k` answered `slow_down`. -/
theorem pollLoop_waits_succ (interval : Nat) (resp : Nat → PollResponse)
    (auth : AuthManager) :
    ∀ fuel idx k, k + 1 < (pollLoop interval resp auth idx fuel).attempts →
      (pollLoop interval resp auth idx fuel).waits.getD (k + 1) 0 =
        interval + (if isSlowB (resp (idx + k)) then interval else 0) := by
  intro fuel
  induction fuel with
  | zero => intro idx k hk; simp [pollLoop] at hk
  | succ n ih =>
      intro idx k hk
      cases hc : classify (resp idx) with
      | terminalOk t =>
          simp only [pollLoop, hc] at hk
          omega
      | terminalFail =>
          simp only [pollLoop, hc] at hk
          omega
      | slow =>
          rw [pollLoop] at hk ⊢
          simp only [hc, stepSlow_attempts] at hk
          simp only [hc]
          cases hw : (pollLoop interval resp auth (idx + 1) n).waits with
          | nil =>
              have h0 : (pollLoop interval resp auth (idx + 1) n).attempts = 0 := by
                rw [← pollLoop_waits_length interval resp auth n (idx + 1), hw]
                rfl
              omega
          | cons w ws =>
              have hpos : 0 < (pollLoop interval resp auth (idx + 1) n).attempts := by
                rw [← pollLoop_waits_length interval resp auth n (idx + 1), hw]
                simp
              cases k with
              | zero =>
                  have hhead := pollLoop_waits_head interval resp auth n (idx + 1) hpos
                  rw [hw] at hhead
                  simp only [List.getD_cons_zero] at hhead
                  have hslow : isSlowB (resp idx) = true := by
                    simp [isSlowB, hc]
                  simp [stepSlow, hw, hslow, hhead]
              | succ j =>
                  have hj := ih (idx + 1) j (by omega)
                  rw [hw] at hj
                  have harith : idx + 1 + j = idx + (j + 1) := by omega
                  rw [harith] at hj
                  simp only [stepSlow, hw]
                  simpa using hj
      | continueLoop =>
          rw [pollLoop] at hk ⊢
          simp only [hc, stepCont] at hk ⊢
          cases k with
          | zero =>
              have hpos : 0 < (pollLoop interval resp auth (idx + 1) n).attempts := by omega
              have hhead := pollLoop_waits_head interval resp auth n (idx + 1) hpos
              have hslow : isSlowB (resp idx) = false := by
                simp [isSlowB, hc]
              simp only [List.getD] at hhead ⊢
              simp only [List.get?_eq_getElem?] at hhead
              simp [hslow, hhead]
          | succ j =>
              have hj := ih (idx + 1) j (by omega)
              have harith : idx + 1 + j = idx + (j + 1) := by omega
              rw [harith] at hj
              simpa using hj

/-- Total time slept by the loop: the base `interval` per attempt plus one
extra `interval` per `slow_down` response — the backoff accumulates across
`slow_down` responses. -/
theorem pollLoop_total_sleep (interval : Nat) (resp : Nat → PollResponse)
    (auth : AuthManager) :
    ∀ fuel idx,
      (pollLoop interval resp auth idx fuel).waits.sum
        + (pollLoop interval resp auth idx fuel).trailing =
      interval * (pollLoop interval resp auth idx fuel).attempts
        + interval * countSlowFrom resp idx (pollLoop interval resp auth idx fuel).attempts := by
  intro fuel
  induction fuel with
  | zero => intro idx; rfl
  | succ n ih =>
      intro idx
      cases hc : classify (resp idx) with
      | terminalOk t =>
          have hs : isSlowB (resp idx) = false := by simp [isSlowB, hc]
          simp [pollLoop, hc, countSlowFrom, hs]
      | terminalFail =>
          have hs : isSlowB (resp idx) = false := by simp [isSlowB, hc]
          simp [pollLoop, hc, countSlowFrom, hs]
      | slow =>
          have hs : isSlowB (resp idx) = true := by simp [isSlowB, hc]
          have hrec := ih (idx + 1)
          rw [pollLoop]
          simp only [hc]
          cases hw : (pollLoop interval resp auth (idx + 1) n).waits with
          | nil =>
              have h0 : (pollLoop interval resp auth (idx + 1) n).attempts = 0 := by
                rw [← pollLoop_waits_length interval resp auth n (idx + 1), hw]
                rfl
              rw [hw, h0] at hrec
              simp only [List.sum_nil, Nat.zero_add, countSlowFrom, Nat.mul_zero,
                Nat.add_zero, Nat.zero_add] at hrec
              simp [stepSlow, hw, h0, countSlowFrom, hs]
              omega
          | cons w ws =>
              rw [hw] at hrec
              simp only [List.sum_cons] at hrec
              have hat : (pollLoop interval resp auth (idx + 1) n).attempts = ws.length + 1 := by
                rw [← pollLoop_waits_length interval resp auth n (idx + 1), hw]
                simp
              rw [hat] at hrec
              have hcount : countSlowFrom resp idx (ws.length + 1 + 1)
                  = 1 + countSlowFrom resp (idx + 1) (ws.length + 1) := by
                rw [countSlowFrom, hs]
                simp
              have e1 : interval * (ws.length + 1 + 1)
                  = interval * (ws.length + 1) + interval := by ring
              have e2 : interval * (1 + countSlowFrom resp (idx + 1) (ws.length + 1))
                  = interval + interval * countSlowFrom resp (idx + 1) (ws.length + 1) := by
                ring
              simp only [stepSlow, hw, hat, List.sum_cons]
              rw [hcount, e1, e2]
              omega
      | continueLoop =>
          have hs : isSlowB (resp idx) = false := by simp [isSlowB, hc]
          have hrec := ih (idx + 1)
          have hcount : countSlowFrom resp idx
                ((pollLoop interval resp auth (idx + 1) n).attempts + 1)
              = countSlowFrom resp (idx + 1) (pollLoop interval resp auth (idx + 1) n).attempts := by
            rw [countSlowFrom, hs]
            simp
          have e1 : interval * ((pollLoop interval resp auth (idx + 1) n).attempts + 1)
              = interval * (pollLoop interval resp auth (idx + 1) n).attempts + interval := by
            ring
          rw [pollLoop]
          simp only [hc, stepCont, List.sum_cons]
          rw [hcount, e1]
          omega

/-! ### Helper lemmas for the broadcaster and the miner -/

/-- Closed form of the delivery loop: successful clients are collected in
iteration order; each failing client is erased from the live set. -/
theorem broadcastGo_spec {α : Type} [DecidableEq α] (ok : α → Bool) :
    ∀ (pending subs delivered : List α),
      broadcastGo ok pending subs delivered =
        (delivered.reverse ++ pending.filter ok,
         (pending.filter (fun x => !(ok x))).foldl List.erase subs) := by
  intro pending
  induction pending with
  | nil => intro subs delivered; simp [broadcastGo]
  | cons c cs ih =>
      intro subs delivered
      by_cases hok : ok c = true
      · simp [broadcastGo, hok, ih]
      · have hok' : ok c = false := by
          cases h : ok c
          · rfl
          · exact absurd h hok
        simp [broadcastGo, hok', ih]

/-- With exactly one failing element, `filter ok` is `erase` of it. -/
theorem filter_ok_eq_erase {α : Type} [DecidableEq α] (ok : α → Bool) (c : α) :
    ∀ (l : List α), l.Nodup → c ∈ l → ok c = false →
      (∀ d ∈ l, d ≠ c → ok d = true) → l.filter ok = l.erase c := by
  intro l
  induction l with
  | nil => intro _ hmem; simp at hmem
  | cons a rest ih =>
      intro hnd hmem hcf hothers
      by_cases hac : a = c
      · subst hac
        have hnotin : a ∉ rest := (List.nodup_cons.mp hnd).1
        have hall : rest.filter ok = rest := by
          rw [List.filter_eq_self]
          intro d hd
          exact hothers d (List.mem_cons_of_mem a hd)
            (fun hedc => hnotin (hedc ▸ hd))
        have hpa : ¬ ok a = true := by simp [hcf]
        rw [List.filter_cons_of_neg hpa, hall, List.erase_cons_head]
      · have hok : ok a = true :=
          hothers a (List.mem_cons_self a rest) hac
        have hmem' : c ∈ rest := by
          rcases List.mem_cons.mp hmem with h | h
          · exact absurd h.symm hac
          · exact h
        have hrec := ih (List.nodup_cons.mp hnd).2 hmem' hcf
          (fun d hd hdc => hothers d (List.mem_cons_of_mem a hd) hdc)
        rw [List.filter_cons_of_pos hok, hrec,
          List.erase_cons_tail (by simp [hac])]

/-- With exactly one failing element, the failures list is the singleton. -/
theorem filter_fail_eq_single {α : Type} [DecidableEq α] (ok : α → Bool) (c : α) :
    ∀ (l : List α), l.Nodup → c ∈ l → ok c = false →
      (∀ d ∈ l, d ≠ c → ok d = true) → l.filter (fun x => !(ok x)) = [c] := by
  intro l
  induction l with
  | nil => intro _ hmem; simp at hmem
  | cons a rest ih
  =>
      intro hnd hmem hcf hothers
      by_cases hac : a = c
      · subst hac
        have hnotin : a ∉ rest := (List.nodup_cons.mp hnd).1
        have hall : rest.filter (fun x => !(ok x)) = [] := by
          rw [List.filter_eq_nil_iff]
          intro d hd
          have := hothers d (List.mem_cons_of_mem a hd)
            (fun hedc => hnotin (hedc ▸ hd))
          simp [this]
        have hpa : (fun x => !(ok x)) a = true := by simp [hcf]
        rw [@List.filter_cons_of_pos α (fun x => !(ok x)) a rest hpa, hall]
      · have hok : ok a = true :=
          hothers a (List.mem_cons_self a rest) hac
        have hmem' : c ∈ rest := by
          rcases List.mem_cons.mp hmem with h | h
          · exact absurd h.symm hac
          · exact h
        have hrec := ih (List.nodup_cons.mp hnd).2 hmem' hcf
          (fun d hd hdc => hothers d (List.mem_cons_of_mem a hd) hdc)
        have hpa : ¬ (fun x => !(ok x)) a = true := by simp [hok]
        rw [@List.filter_cons_of_neg α (fun x => !(ok x)) a rest hpa, hrec]

/-- `selectNextGame` is first-match-wins over the priority list. -/
theorem selectNextGame_eq_find (priority : List String)
    (games : List (String × Game)) :
    selectNextGame priority games =
      (priority.find? (fun gid => (dictLookup games gid).isSome)).bind
        (fun gid => dictLookup games gid) := by
  induction priority with
  | nil => simp [selectNextGame]
  | cons gid rest ih =>
      cases h : dictLookup games gid with
      | some g =>
          have hp : (fun gid => (dictLookup games gid).isSome) gid = true := by
            simp [h]
          rw [selectNextGame, h, List.find?_cons_of_pos rest hp]
          simp [h]
      | none =>
          have hp : ¬ (fun gid => (dictLookup games gid).isSome) gid = true := by
            simp [h]
          rw [selectNextGame, h, List.find?_cons_of_neg rest hp]
          exact ih

/-- `_watch_stream` never touches the running flag. -/
theorem watch_stream_is_running (st : MinerState) (ok : Bool) (now : Nat)
    (queue : List Game) :
    (watch_stream st ok now queue).1.is_running = st.is_running := by
  rw [watch_stream]
  by_cases h : ok <;> simp [h]

/-- `_find_and_watch_stream` never touches the running flag. -/
theorem find_and_watch_is_running (st : MinerState) (g : Game) (env : IterEnv) :
    (find_and_watch st g env).1.is_running = st.is_running := by
  rw [find_and_watch]
  cases hd : env.discovered with
  | none => rfl
  | some strm => rw [watch_stream_is_running]

/-- `_continue_watching` never touches the running flag. -/
theorem continue_watching_is_running (st : MinerState) (env : IterEnv) :
    (continue_watching st env).1.is_running = st.is_running := by
  rw [continue_watching]
  cases hcs : st.current_stream with
  | none => rfl
  | some strm => rw [watch_stream_is_running]

/-- The switch step never touches the running flag. -/
theorem switch_step_is_running (st : MinerState) (g : Game) (env : IterEnv) :
    (switch_step st g env).1.is_running = st.is_running := by
  rw [switch_step]
  cases hcg : st.current_game with
  | none => rfl
  | some cg =>
      show (if cg.id ≠ g.id then switch_to_game st g env.now env.queue
        else (st, [])).1.is_running = st.is_running
      by_cases hne : cg.id ≠ g.id
      · rw [if_pos hne]
        rfl
      · rw [if_neg hne]

/-- The watch step never touches the running flag. -/
theorem watch_step_is_running (sw : MinerState × List MinerStatus) (g : Game)
    (env : IterEnv) :
    (watch_step sw g env).1.is_running = sw.1.is_running := by
  rw [watch_step]
  by_cases h : sw.1.current_stream.isNone || !(stream_live sw.1 env.now)
  · simp only [h, if_true]
    exact find_and_watch_is_running sw.1 g env
  · simp only [h, if_false]
    exact continue_watching_is_running sw.1 env

/-- `_process_next_game` never touches the running flag. -/
theorem process_next_game_is_running (st : MinerState) (env : IterEnv) :
    (process_next_game st env).1.is_running = st.is_running := by
  rw [process_next_game]
  split
  · rfl
  split
  · rfl
  split
  · rfl
  rw [watch_step_is_running, switch_step_is_running]

/-- Every miner event preserves the idle invariant. -/
theorem minerStep_preserves (st : MinerState) (e : MinerEvent)
    (h : IdleInv st) : IdleInv (minerStep st e) := by
  cases e with
  | start =>
      intro hrun
      by_cases hr : st.is_running
      · rw [minerStep, minerStart, if_pos hr] at hrun ⊢
        exact h hrun
      · rw [minerStep, minerStart, if_neg hr] at hrun
        simp at hrun
  | stop =>
      intro hrun
      by_cases hr : st.is_running
      · rw [minerStep, minerStop, if_pos hr]
      · rw [minerStep, minerStop, if_neg hr] at hrun ⊢
        exact h hrun
  | iterate env =>
      intro hrun
      by_cases hr : st.is_running
      · rw [minerStep, if_pos hr] at hrun
        rw [process_next_game_is_running] at hrun
        rw [hrun] at hr
        exact absurd hr (by simp)
      · rw [minerStep, if_neg hr] at hrun ⊢
        exact h hrun

/-- The idle invariant holds in every reachable state. -/
theorem minerRun_idleInv (evs : List MinerEvent) : IdleInv (minerRun evs) := by
  have hgen : ∀ (l : List MinerEvent) (st : MinerState), IdleInv st →
      IdleInv (l.foldl minerStep st) := by
    intro l
    induction l with
    | nil => intro st h; exact h
    | cons e rest ih =>
        intro st h
        exact ih (minerStep st e) (minerStep_preserves st e h)
  exact hgen evs minerInit (by intro _; rfl)

/-! ## Claim theorems -/

/-- C1: A successful token poll (HTTP 200 with an `access_token` field)
stores the token on the shared AuthSession, but does NOT mark the session
logged-in: no code in the repository ever sets the `_logged_in` event, so
`AuthManager.is_logged_in` is still false immediately after the poll
returns — contradicting the claim (and breaking the evident intent of
`AuthManager`: `wait_until_login` would block forever and the Miner
refuses to mine while `is_logged_in` is false). -/
theorem poll_success_leaves_session_logged_out :
    (poll_device_auth 5 (fun _ => PollResponse.ok (some "tok"))
      AuthManager.init).outcome = PollOutcome.authenticated "tok"
  ∧ (poll_device_auth 5 (fun _ => PollResponse.ok (some "tok"))
      AuthManager.init).auth.access_token = some (some "tok")
  ∧ (poll_device_auth 5 (fun _ => PollResponse.ok (some "tok"))
      AuthManager.init).auth.is_logged_in = Except.ok false :=
  ⟨rfl, rfl, rfl⟩

/-- C2: For every response sequence and positive interval,
`poll_device_auth` terminates authenticated iff one of the attempts it
performs returns HTTP 200 with an `access_token` field; a failed outcome
happens only by budget exhaustion or an `expired_token`/`access_denied`
response (and conversely such a response forces failure, and a fully
non-terminal window forces exhaustion); the attempt count never exceeds
the budget `300 / interval`; and every attempt with a successor was
non-terminal, i.e. no attempt follows either terminal outcome. -/
theorem poll_device_auth_termination (interval : Nat)
    (resp : Nat → PollResponse) (auth : AuthManager) (hpos : 0 < interval) :
    ((∃ t, (poll_device_auth interval resp auth).outcome
        = PollOutcome.authenticated t) ↔
      (∃ i, i < (poll_device_auth interval resp auth).attempts ∧
        ∃ t, resp i = PollResponse.ok (some t)))
  ∧ ((poll_device_auth interval resp auth).outcome = PollOutcome.failed →
      (poll_device_auth interval resp auth).attempts = 300 / interval ∨
      ∃ i, i < (poll_device_auth interval resp auth).attempts ∧
        (resp i = PollResponse.badRequest (some "expired_token") ∨
         resp i = PollResponse.badRequest (some "access_denied")))
  ∧ (∀ i, i < (poll_device_auth interval resp auth).attempts →
      (resp i = PollResponse.badRequest (some "expired_token") ∨
       resp i = PollResponse.badRequest (some "access_denied")) →
      (poll_device_auth interval resp auth).outcome = PollOutcome.failed)
  ∧ ((∀ i, i < 300 / interval → isTerminalB (resp i) = false) →
      (poll_device_auth interval resp auth).outcome = PollOutcome.failed ∧
      (poll_device_auth interval resp auth).attempts = 300 / interval)
  ∧ ((poll_device_auth interval resp auth).attempts ≤ 300 / interval)
  ∧ (∀ i, i + 1 < (poll_device_auth interval resp auth).attempts →
      isTerminalB (resp i) = false) := by
  have hiff := pollLoop_authenticated_iff interval resp auth (300 / interval) 0
  have hfail := pollLoop_failed_reason interval resp auth (300 / interval) 0
  have hterm := pollLoop_terminalFail_failed interval resp auth (300 / interval) 0
  have hexh := pollLoop_exhaustion interval resp auth (300 / interval) 0
  have hle := pollLoop_attempts_le interval resp auth (300 / interval) 0
  have hnf := pollLoop_nonfinal_nonterminal interval resp auth (300 / interval) 0
  simp only [Nat.zero_add] at hiff hfail hterm hexh hnf
  refine ⟨hiff, hfail, ?_, hexh, hle, hnf⟩
  intro i hi hr
  exact hterm i hi ((classify_terminalFail_iff (resp i)).mpr hr)

/-- Witness for C2 at a concrete input: interval 5, every response an
HTTP 200 carrying a token. -/
theorem poll_device_auth_termination_witness :
    0 < 5 ∧
    ((∃ t, (poll_device_auth 5 (fun _ => PollResponse.ok (some "t5"))
        AuthManager.init).outcome = PollOutcome.authenticated t) ↔
      (∃ i, i < (poll_device_auth 5 (fun _ => PollResponse.ok (some "t5"))
          AuthManager.init).attempts ∧
        ∃ t, (fun _ => PollResponse.ok (some "t5")) i
          = PollResponse.ok (some t))) :=
  ⟨by decide,
    (poll_device_auth_termination 5 (fun _ => PollResponse.ok (some "t5"))
      AuthManager.init (by decide)).1⟩

/-- C3: A `slow_down` response never terminates the loop (while budget
remains, a next attempt always happens); the wait before that next
attempt is `2 * interval`, strictly greater than the plain `interval`
wait that precedes the first attempt and any attempt after an
`authorization_pending` response; and the extra backoff accumulates: the
total time slept is `interval` per attempt plus one extra `interval` per
`slow_down` response received. -/
theorem poll_slow_down_backoff (interval : Nat) (resp : Nat → PollResponse)
    (auth : AuthManager) (hpos : 0 < interval) (i : Nat)
    (hi : i < (poll_device_auth interval resp auth).attempts)
    (hs : resp i = PollResponse.badRequest (some "slow_down")) :
    (i + 1 < 300 / interval →
      i + 1 < (poll_device_auth interval resp auth).attempts)
  ∧ (i + 1 < (poll_device_auth interval resp auth).attempts →
      (poll_device_auth interval resp auth).waits.getD (i + 1) 0
        = interval + interval)
  ∧ (∀ k, k + 1 < (poll_device_auth interval resp auth).attempts →
      resp k = PollResponse.badRequest (some "authorization_pending") →
      (poll_device_auth interval resp auth).waits.getD (k + 1) 0 = interval)
  ∧ (0 < (poll_device_auth interval resp auth).attempts →
      (poll_device_auth interval resp auth).waits.getD 0 0 = interval)
  ∧ interval < interval + interval
  ∧ (poll_device_auth interval resp auth).waits.sum
      + (poll_device_auth interval resp auth).trailing =
    interval * (poll_device_auth interval resp auth).attempts
      + interval * countSlowFrom resp 0
          (poll_device_auth interval resp auth).attempts := by
  have hcs : classify (resp i) = StepKind.slow :=
    (classify_slow_iff (resp i)).mpr hs
  have hsb : isSlowB (resp i) = true := by
    rw [isSlowB, hcs]
  have hnt : isTerminalB (resp i) = false :=
    (isTerminalB_false_iff (resp i)).mpr (Or.inl hcs)
  rw [poll_device_auth] at hi ⊢
  refine ⟨?_, ?_, ?_, ?_, by omega, ?_⟩
  · intro hb
    have := pollLoop_continues interval resp auth (300 / interval) 0 i
    simp only [Nat.zero_add] at this
    exact this hi hnt hb
  · intro hnext
    have hlen := pollLoop_waits_length interval resp auth (300 / interval) 0
    have := pollLoop_waits_succ interval resp auth (300 / interval) 0 i hnext
    simp only [Nat.zero_add] at this
    rw [this, hsb]
    simp
  · intro k hk hkp
    have hck : classify (resp k) = StepKind.continueLoop := by
      rw [hkp]
      decide
    have hksb : isSlowB (resp k) = false := by
      rw [isSlowB, hck]
    have := pollLoop_waits_succ interval resp auth (300 / interval) 0 k hk
    simp only [Nat.zero_add] at this
    rw [this, hksb]
    simp
  · intro h0
    exact pollLoop_waits_head interval resp auth (300 / interval) 0 h0
  · have := pollLoop_total_sleep interval resp auth (300 / interval) 0
    exact this

/-- Witness for C3 at a concrete input: interval 150 (budget 2 attempts),
every response `slow_down`, attempt index 0. -/
theorem poll_slow_down_backoff_witness :
    0 < 150 ∧
    0 < (poll_device_auth 150
        (fun _ => PollResponse.badRequest (some "slow_down"))
        AuthManager.init).attempts ∧
    ((poll_device_auth 150 (fun _ => PollResponse.badRequest (some "slow_down"))
        AuthManager.init).waits.sum
      + (poll_device_auth 150 (fun _ => PollResponse.badRequest (some "slow_down"))
          AuthManager.init).trailing =
      150 * (poll_device_auth 150
          (fun _ => PollResponse.badRequest (some "slow_down"))
          AuthManager.init).attempts
        + 150 * countSlowFrom (fun _ => PollResponse.badRequest (some "slow_down")) 0
            (poll_device_auth 150
              (fun _ => PollResponse.badRequest (some "slow_down"))
              AuthManager.init).attempts) :=
  ⟨by decide, by decide,
    (poll_slow_down_backoff 150 (fun _ => PollResponse.badRequest (some "slow_down"))
      AuthManager.init (by decide) 0 (by decide) rfl).2.2.2.2.2⟩

/-- C4: `gql_request` on a not-logged-in session fails with the
"Not logged in" error and its result does not depend on the network
response at all (the check precedes any network call); on a logged-in
session a 200 response always yields a list of per-operation results —
for any operations list, including a singleton — with a non-list body
wrapped into a one-element list. -/
theorem gql_request_auth_and_list {α β : Type} (auth : AuthManager)
    (ops : List α) :
    (auth.is_logged_in = Except.ok false →
      ∀ net net' : Nat × JsonDoc β,
        gql_request auth ops net = Except.error GqlErr.notLoggedIn ∧
        gql_request auth ops net = gql_request auth ops net')
  ∧ (auth.is_logged_in = Except.ok true →
      ∀ x : β, gql_request auth ops (200, JsonDoc.single x) = Except.ok [x])
  ∧ (auth.is_logged_in = Except.ok true →
      ∀ xs : List β, gql_request auth ops (200, JsonDoc.arr xs) = Except.ok xs) := by
  have hread : auth.is_logged_in = Except.ok true →
      ∃ t, readAttr auth.access_token = Except.ok t := by
    intro h
    by_cases hl : auth.logged_in
    · rw [AuthManager.is_logged_in, if_pos hl] at h
      cases hrd : readAttr auth.access_token with
      | error e =>
          rw [hrd] at h
          simp at h
      | ok t => exact ⟨t, rfl⟩
    · rw [AuthManager.is_logged_in, if_neg hl] at h
      simp at h
  refine ⟨?_, ?_, ?_⟩
  · intro h net net'
    constructor
    · simp only [gql_request, h]
    · simp only [gql_request, h]
  · intro h x
    obtain ⟨t, ht⟩ := hread h
    simp only [gql_request, h, ht]
    simp
  · intro h xs
    obtain ⟨t, ht⟩ := hread h
    simp only [gql_request, h, ht]
    simp

/-- Witness for C4 at concrete inputs: the fresh session is rejected with
the not-logged-in error regardless of the response, and a logged-in
session has a single result wrapped into a list. -/
theorem gql_request_auth_and_list_witness :
    AuthManager.init.is_logged_in = Except.ok false ∧
    loggedInAuth.is_logged_in = Except.ok true ∧
    gql_request AuthManager.init [0]
      ((404, JsonDoc.single 7) : Nat × JsonDoc Nat)
      = Except.error GqlErr.notLoggedIn ∧
    gql_request loggedInAuth [0] ((200, JsonDoc.single 7) : Nat × JsonDoc Nat)
      = Except.ok [7] :=
  ⟨rfl, rfl,
    ((gql_request_auth_and_list AuthManager.init [0]).1 rfl
      (404, JsonDoc.single 7) (404, JsonDoc.single 7)).1,
    (gql_request_auth_and_list loggedInAuth [0]).2.1 rfl 7⟩

/-- C5: the Orchestrator's game selection is first-match-wins over the
priority list restricted to games present in the catalog, with no
weighting; in particular with watch-list `["gameA", "gameB"]` and a
catalog knowing only `gameB`, it selects `gameB`. -/
theorem select_next_game_first_match (priority : List String)
    (games : List (String × Game)) :
    selectNextGame priority games =
      (priority.find? (fun gid => (dictLookup games gid).isSome)).bind
        (fun gid => dictLookup games gid)
  ∧ selectNextGame ["gameA", "gameB"] [("gameB", gameB)] = some gameB :=
  ⟨selectNextGame_eq_find priority games, rfl⟩

/-- C6 (amended): a failed watch-time request clears the current stream
and the watch session, emits no snapshot itself, and any snapshot computed
from the post-failure state has a null current stream.  (The claim's
stronger reading — that the next snapshot the Orchestrator *emits* shows
`currentStream = null` — fails; see the counterexample.) -/
theorem watch_failure_clears_stream_state (st : MinerState) (now : Nat)
    (queue : List Game) :
    (watch_stream st false now queue).1.current_stream = none
  ∧ (watch_stream st false now queue).1.watch_start_time = none
  ∧ (watch_stream st false now queue).2 = []
  ∧ (update_status (watch_stream st false now queue).1 now queue).current_stream
      = none :=
  ⟨rfl, rfl, rfl, rfl⟩

/-- C6 counterexample: after the failing watch request (which emits no
snapshot), the next StatusSnapshot the Orchestrator emits is produced by
the following tick's successful rediscovery, and its `currentStream` is
the newly adopted stream — not null, refuting the claim as stated. -/
theorem watch_failure_next_snapshot_not_null :
    (process_next_game stC6 envC6fail).2 = []
  ∧ (process_next_game stC6 envC6fail).1.current_stream = none
  ∧ (process_next_game (process_next_game stC6 envC6fail).1 envC6next).2.head?.map
      MinerStatus.current_stream
      = some (some { streamC6' with game_id := "g1", game_name := "G" })
  ∧ (some (some { streamC6' with game_id := "g1", game_name := "G" })
      : Option (Option Stream)) ≠ some none := by
  refine ⟨rfl, rfl, rfl, by simp⟩

/-- C7: when exactly one of the registered subscribers throws on delivery,
the broadcast still delivers to all the other subscribers (in iteration
order) and removes exactly the failing subscriber from the subscriber
set. -/
theorem broadcast_single_failure {α : Type} [DecidableEq α]
    (clients : List α) (ok : α → Bool) (c : α) (hnd : clients.Nodup)
    (hc : c ∈ clients) (hcf : ok c = false)
    (hrest : ∀ d ∈ clients, d ≠ c → ok d = true) :
    (broadcast ok clients).1 = clients.erase c
  ∧ (broadcast ok clients).2 = clients.erase c
  ∧ (broadcast ok clients).1.length + 1 = clients.length := by
  have hspec := broadcastGo_spec ok clients clients []
  have hfo := filter_ok_eq_erase ok c clients hnd hc hcf hrest
  have hff := filter_fail_eq_single ok c clients hnd hc hcf hrest
  rw [broadcast, hspec, hfo, hff]
  simp only [List.reverse_nil, List.nil_append, List.foldl_cons, List.foldl_nil]
  exact ⟨trivial, trivial, List.length_erase_add_one hc⟩

/-- Witness for C7 at a concrete input: subscribers `[0, 1, 2]`, delivery
to `1` throws. -/
theorem broadcast_single_failure_witness :
    ([0, 1, 2] : List Nat).Nodup ∧ (1 : Nat) ∈ ([0, 1, 2] : List Nat) ∧
    (broadcast (fun d : Nat => d != 1) [0, 1, 2]).1
      = ([0, 1, 2] : List Nat).erase 1 ∧
    (broadcast (fun d : Nat => d != 1) [0, 1, 2]).2
      = ([0, 1, 2] : List Nat).erase 1 :=
  ⟨by decide, by decide,
    (broadcast_single_failure [0, 1, 2] (fun d : Nat => d != 1) 1 (by decide)
      (by decide) (by decide) (by decide)).1,
    (broadcast_single_failure [0, 1, 2] (fun d : Nat => d != 1) 1 (by decide)
      (by decide) (by decide) (by decide)).2.1⟩

/-- C8: in every state reachable by any sequence of `start()`/`stop()`
calls and loop iterations, a non-running miner has a null current stream;
`start()` is a no-op when already running; `stop()` is a no-op when not
running and otherwise clears the current game, current stream and watch
session. -/
theorem miner_idle_invariant (evs : List MinerEvent) :
    ((minerRun evs).is_running = false → (minerRun evs).current_stream = none)
  ∧ (∀ st : MinerState, st.is_running = true → minerStart st = st)
  ∧ (∀ st : MinerState, st.is_running = false → minerStop st = st)
  ∧ (∀ st : MinerState, st.is_running = true →
      (minerStop st).current_game = none ∧
      (minerStop st).current_stream = none ∧
      (minerStop st).watch_start_time = none) := by
  refine ⟨minerRun_idleInv evs, ?_, ?_, ?_⟩
  · intro st h
    rw [minerStart, if_pos h]
  · intro st h
    rw [minerStop, if_neg (by simp [h])]
  · intro st h
    rw [minerStop, if_pos h]
    exact ⟨rfl, rfl, rfl⟩

/-- Witness for C8 at a concrete trace: start, one full iteration that
adopts a stream, then stop — the final state is idle with a null stream. -/
theorem miner_idle_invariant_witness :
    (minerRun [MinerEvent.start,
      MinerEvent.iterate
        { logged_in := true, priority := ["g1"], catalog := [("g1", gameC8)]
          discovered := some streamC8, watchOk := true, now := 5 },
      MinerEvent.stop]).is_running = false ∧
    (minerRun [MinerEvent.start,
      MinerEvent.iterate
        { logged_in := true, priority := ["g1"], catalog := [("g1", gameC8)]
          discovered := some streamC8, watchOk := true, now := 5 },
      MinerEvent.stop]).current_stream = none :=
  ⟨rfl,
    (miner_idle_invariant [MinerEvent.start,
      MinerEvent.iterate
        { logged_in := true, priority := ["g1"], catalog := [("g1", gameC8)]
          discovered := some streamC8, watchOk := true, now := 5 },
      MinerEvent.stop]).1 rfl⟩

/-- C9: `add_log` keeps the stored log at no more than 1000 entries by
oldest-eviction: the result is exactly the last 1000 elements (in order)
of the previous list with the new entry appended — a suffix of it ending
in the new entry. -/
theorem add_log_retention (logs : List LogEntry) (entry : LogEntry) :
    (add_log logs entry).length ≤ 1000
  ∧ add_log logs entry =
      (logs ++ [entry]).drop ((logs ++ [entry]).length - 1000)
  ∧ (add_log logs entry).getLast? = some entry
  ∧ List.IsSuffix (add_log logs entry) (logs ++ [entry]) := by
  have hlen : (logs ++ [entry]).length = logs.length + 1 := by simp
  by_cases h : 1000 < (logs ++ [entry]).length
  · have he : add_log logs entry =
        (logs ++ [entry]).drop ((logs ++ [entry]).length - 1000) := by
      rw [add_log]
      simp only [h, if_true]
    refine ⟨?_, he, ?_, ?_⟩
    · rw [he, List.length_drop]
      omega
    · rw [he, List.drop_append_of_le_length (by omega : (logs ++ [entry]).length - 1000 ≤ logs.length),
        List.getLast?_concat]
    · rw [he]
      exact List.drop_suffix _ _
  · have he : add_log logs entry = logs ++ [entry] := by
      rw [add_log]
      simp only [h, if_false]
    have hz : (logs ++ [entry]).length - 1000 = 0 := by omega
    refine ⟨?_, ?_, ?_, ?_⟩
    · rw [he]; omega
    · rw [he, hz, List.drop_zero]
    · rw [he, List.getLast?_concat]
    · rw [he]

/-- C10 (amended): `AuthManager.clear()` deletes the five credential
attributes outright (rather than resetting them to `None`), so a direct
read of `access_token` — in particular the bearer-token injection of
`request()` — raises `AttributeError`; the `is_logged_in` check, however,
short-circuits on the cleared logged-in flag and returns `False` without
ever reading `access_token`, i.e. it behaves as an unauthenticated
session instead of raising. -/
theorem clear_deletes_credential_attributes (a : AuthManager) :
    readAttr (AuthManager.clear a).access_token
      = Except.error PyError.attributeError
  ∧ readAttr (AuthManager.clear a).user_id
      = Except.error PyError.attributeError
  ∧ readAttr (AuthManager.clear a).device_id
      = Except.error PyError.attributeError
  ∧ readAttr (AuthManager.clear a).session_id
      = Except.error PyError.attributeError
  ∧ readAttr (AuthManager.clear a).client_version
      = Except.error PyError.attributeError
  ∧ authHeaderOf (AuthManager.clear a) = Except.error PyError.attributeError
  ∧ (AuthManager.clear a).is_logged_in = Except.ok false :=
  ⟨rfl, rfl, rfl, rfl, rfl, rfl, rfl⟩

/-- C10 counterexample: right after `clear()`, the `is_logged_in` check
does NOT raise `AttributeError` — Python's `and` short-circuits on the
cleared `_logged_in` event, so it returns `False` (an unauthenticated
session) without reading the deleted `access_token` attribute. -/
theorem clear_is_logged_in_returns_false :
    (AuthManager.clear loggedInAuth).is_logged_in = Except.ok false
  ∧ (AuthManager.clear loggedInAuth).is_logged_in
      ≠ Except.error PyError.attributeError := by
  refine ⟨rfl, ?_⟩
  intro h
  rw [show (AuthManager.clear loggedInAuth).is_logged_in = Except.ok false from rfl] at h
  exact Except.noConfusion h

end TDF
